import Mathlib

/-!
Shallow embedding of the provider-side settlement engine of the node
repository (source: src/unnamed/part_001, package `pingpong`,
`hermesPromiseSettler` and `settlementState`).

Go maps are modelled as association lists with the Go lookup-or-zero-value
read semantics; `uint64` values are `Nat` with explicit `% 2^64` at the
points where the source truncates (`big.Int.Uint64()`) or adds
(`balance + settled`); the `float64` threshold arithmetic of
`needsSettling` is modelled over `ℚ`; fallible collaborator calls are
`Except`-valued oracle functions supplied in a `SettlerEnv`; the waiter
goroutine select outcome is an explicit `WaiterOutcome` input.
-/

namespace Node

/-- 2^64, the modulus of Go `uint64` arithmetic. -/
def UINT64_MOD : Nat := 18446744073709551616

/-- Modelled from the spec: `safeSub` is referenced by part_001
(`unsettledBalance`, `balance`) but defined outside src/; the spec says
"All subtractions saturate at zero". -/
def safeSub (a b : Nat) : Nat := if a ≥ b then a - b else 0

/-- Go `common.Address` (20-byte address); `Hex` is its hex rendering,
used by the transactor calls in part_001 lines 680 and 684. -/
structure common.Address where
  Hex : String
deriving DecidableEq, Repr

/-- Go `identity.Identity` (field `Address string`); equality by bytes. -/
structure identity.Identity where
  Address : String
deriving DecidableEq, Repr

/-- Embeds `identity.Identity.ToCommonAddress` (used at part_001 lines 386, 624). -/
def identity.Identity.ToCommonAddress (i : identity.Identity) : common.Address :=
  ⟨i.Address⟩

/-- Go `crypto.Promise` (external payments library): the fields part_001
manipulates are the cumulative `Amount` (uint64) and the preimage `R`
(bytes, set at lines 534, 584, 607 after hex-decoding). -/
structure crypto.Promise where
  Amount : Nat
  R : List Nat
deriving DecidableEq, Repr

/-- Go zero value of `crypto.Promise`. -/
def crypto.Promise.zero : crypto.Promise := ⟨0, []⟩

/-- Go `client.ProviderChannel` (mirror of on-chain escrow state):
`Balance` and `Settled` are `*big.Int`, so `none` models a nil pointer
(part_001 lines 754, 763, 768 check nil before calling `Uint64()`). -/
structure client.ProviderChannel where
  Balance : Option Nat
  Settled : Option Nat
deriving DecidableEq, Repr

/-- Go zero value of `client.ProviderChannel` (nil pointers). -/
def client.ProviderChannel.zero : client.ProviderChannel := ⟨none, none⟩

/-- Embeds `settlementState` (part_001 lines 738-744): per-identity in-memory
record of the last chain view, last promise, and the two flags. -/
structure settlementState where
  channel : client.ProviderChannel
  lastPromise : crypto.Promise
  settleInProgress : Bool
  registered : Bool
deriving DecidableEq, Repr

/-- Go zero value of `settlementState`, the value a Go map read returns
for a missing key. -/
def settlementState.zero : settlementState :=
  ⟨client.ProviderChannel.zero, crypto.Promise.zero, false, false⟩

/-- Embeds `settlementState.lifetimeBalance` (part_001 lines 747-749). -/
def settlementState.lifetimeBalance (ss : settlementState) : Nat :=
  ss.lastPromise.Amount

/-- Embeds `settlementState.unsettledBalance` (part_001 lines 752-759):
`safeSub(lastPromise.Amount, channel.Settled.Uint64())`, with nil
`Settled` read as 0 and `Uint64()` truncating mod 2^64. -/
def settlementState.unsettledBalance (ss : settlementState) : Nat :=
  let settled : Nat :=
    match ss.channel.Settled with
    | none => 0
    | some s => s % UINT64_MOD
  safeSub ss.lastPromise.Amount settled

/-- Embeds `settlementState.availableBalance` (part_001 lines 761-773):
`channel.Balance.Uint64() + channel.Settled.Uint64()` in uint64
arithmetic, nil pointers read as 0. -/
def settlementState.availableBalance (ss : settlementState) : Nat :=
  let balance : Nat :=
    match ss.channel.Balance with
    | none => 0
    | some b => b % UINT64_MOD
  let settled : Nat :=
    match ss.channel.Settled with
    | none => 0
    | some s => s % UINT64_MOD
  (balance + settled) % UINT64_MOD

/-- Embeds `settlementState.balance` (part_001 lines 775-777). -/
def settlementState.balance (ss : settlementState) : Nat :=
  safeSub ss.availableBalance ss.lastPromise.Amount

/-- Embeds `settlementState.needsSettling` (part_001 lines 779-799); the
`float64` threshold arithmetic is modelled exactly over `ℚ`. -/
def settlementState.needsSettling (ss : settlementState) (threshold : ℚ) : Bool :=
  if !ss.registered then false
  else if ss.settleInProgress then false
  else
    let calculatedThreshold : ℚ := threshold * (ss.availableBalance : ℚ)
    let possibleEarnings : ℚ := (ss.unsettledBalance : ℚ)
    if possibleEarnings < calculatedThreshold then false
    else if (ss.balance : ℚ) < calculatedThreshold then true
    else false

/-- Modelled from the spec: `event.Earnings` is defined outside src/;
per spec §3 it is the pair of lifetime and unsettled balances. -/
structure event.Earnings where
  LifetimeBalance : Nat
  UnsettledBalance : Nat
deriving DecidableEq, Repr

/-- Embeds `settlementState.Earnings` (part_001 lines 801-806). -/
def settlementState.Earnings (ss : settlementState) : event.Earnings :=
  { LifetimeBalance := ss.lifetimeBalance
    UnsettledBalance := ss.unsettledBalance }

/-- The `currentState` Go map of the settler (`map[identity.Identity]settlementState`),
modelled as an association list. -/
def StateMap : Type := List (identity.Identity × settlementState)

/-- Go map lookup with `ok` flag: `v, ok := m[id]`. -/
def StateMap.find : StateMap → identity.Identity → Option settlementState
  | [], _ => none
  | (k, v) :: rest, i => if k = i then some v else StateMap.find rest i

/-- Go map read without `ok` flag: `m[id]` yields the zero value for a
missing key. -/
def StateMap.findZero (m : StateMap) (i : identity.Identity) : settlementState :=
  (m.find i).getD settlementState.zero

/-- Go map write `m[id] = v`. -/
def StateMap.insert : StateMap → identity.Identity → settlementState → StateMap
  | [], i, s => [(i, s)]
  | (k, v) :: rest, i, s =>
      if k = i then (k, s) :: rest else (k, v) :: StateMap.insert rest i s

/-- Hex digit value, as in the Go `encoding/hex` package. -/
def hexCharVal (c : Char) : Option Nat :=
  if '0' ≤ c ∧ c ≤ '9' then some (c.toNat - '0'.toNat)
  else if 'a' ≤ c ∧ c ≤ 'f' then some (c.toNat - 'a'.toNat + 10)
  else if 'A' ≤ c ∧ c ≤ 'F' then some (c.toNat - 'A'.toNat + 10)
  else none

/-- Go `hex.DecodeString` on a character list: pairs of hex digits become
bytes; odd length or a non-hex digit is an error (`none`). -/
def hexDecodeChars : List Char → Option (List Nat)
  | [] => some []
  | [_] => none
  | c₁ :: c₂ :: rest => do
      let hi ← hexCharVal c₁
      let lo ← hexCharVal c₂
      let tail ← hexDecodeChars rest
      pure ((hi * 16 + lo) :: tail)

/-- Go `hex.DecodeString` (used at part_001 lines 529, 579, 602). -/
def hexDecodeString (s : String) : Option (List Nat) :=
  hexDecodeChars s.data

/-- Modelled from the spec: `HermesPromise`, the value returned by
`promiseStorage.Get`, is defined outside src/; per spec §4.A it carries
the raw promise plus the hex-encoded preimage `R` (decoded before
submission at part_001 lines 529-534, 579-584, 602-607). -/
structure HermesPromise where
  Promise : crypto.Promise
  R : String
deriving DecidableEq, Repr

/-- Go zero value of `HermesPromise` (used when `promiseStorage.Get`
returns `ErrNotFound` in `resyncState`, part_001 lines 391-394). -/
def HermesPromise.zero : HermesPromise := ⟨crypto.Promise.zero, ""⟩

/-- Modelled from the spec: `registry.RegistrationStatus` is defined
outside src/; the statuses are those listed in spec §6. -/
inductive registry.RegistrationStatus where
  | Unregistered
  | InProgress
  | Registered
  | RegistrationError
deriving DecidableEq, Repr

/-- Modelled from the spec: `event.AppEventEarningsChanged` is defined
outside src/; fields follow its construction in `publishChangeEvent`
(part_001 lines 408-414). -/
structure event.AppEventEarningsChanged where
  Identity : identity.Identity
  Previous : event.Earnings
  Current : event.Earnings
deriving DecidableEq, Repr

/-- Modelled from the spec: `event.AppEventHermesPromise` is defined
outside src/; fields follow its use at part_001 lines 492-515 and the
`hermes.promise` payload of spec §6. -/
structure event.AppEventHermesPromise where
  ProviderID : identity.Identity
  HermesID : common.Address
  Promise : crypto.Promise
deriving DecidableEq, Repr

/-- Go `types.Log` as embedded in the settled event (`info.Raw.TxHash`,
part_001 line 647). -/
structure types.Log where
  TxHash : String
deriving DecidableEq, Repr

/-- Embeds `bindings.HermesImplementationPromiseSettled`, the on-chain settled
event delivered on the subscription sink (fields used at part_001
lines 646-651). -/
structure bindings.HermesImplementationPromiseSettled where
  Raw : types.Log
  Amount : Nat
  TotalSettled : Nat
deriving DecidableEq, Repr

/-- Modelled from the spec: `SettlementHistoryEntry` is defined outside
src/; fields follow spec §3
(`tx_hash, promise, amount, total_settled, beneficiary?`) and the
construction at part_001 lines 646-654, where `Beneficiary` is set only
when a beneficiary was supplied (`none` models the absent field). -/
structure SettlementHistoryEntry where
  TxHash : String
  Promise : crypto.Promise
  Amount : Nat
  TotalSettled : Nat
  Beneficiary : Option common.Address
deriving DecidableEq, Repr

/-- Embeds `receivedPromise` (part_001 lines 299-302), the settle-queue item. -/
structure receivedPromise where
  provider : identity.Identity
  promise : crypto.Promise
deriving DecidableEq, Repr

/-- Embeds `HermesPromiseSettlerConfig` (part_001 lines 332-336); the `float64`
threshold is modelled over `ℚ` and the duration as a `Nat`. -/
structure HermesPromiseSettlerConfig where
  HermesAddress : common.Address
  Threshold : ℚ
  MaxWaitForSettlement : Nat

/-- Result of `promiseStorage.Get`: a promise, `ErrNotFound`, or another
storage error (the three cases part_001 distinguishes at lines 391-394,
520-527, 572-577, 595-600). -/
inductive PromiseGetResult where
  | found (p : HermesPromise)
  | notFound
  | storageError
deriving DecidableEq, Repr

/-- Collaborators of the settler (the interfaces at part_001 lines
271-297), as deterministic oracles: chain reads, promise storage,
registration status, and the success of the subscription, history write
and transactor submissions. -/
structure SettlerEnv where
  getProviderChannel : common.Address → common.Address → Except Unit client.ProviderChannel
  promiseGet : identity.Identity → common.Address → PromiseGetResult
  getRegistrationStatus : identity.Identity → Except Unit registry.RegistrationStatus
  subscribeOk : Bool
  storeOk : Bool
  settleAndRebalanceOk : Bool
  settleWithBeneficiaryOk : Bool

/-- Which transactor method was invoked, with its arguments (part_001
lines 679-686). -/
inductive TransactorCall where
  | SettleAndRebalance (hermesID providerID : String) (promise : crypto.Promise)
  | SettleWithBeneficiary (id beneficiary hermesID : String) (promise : crypto.Promise)
deriving DecidableEq, Repr

/-- Error outcomes of the settler (part_001: line 619, line 628 propagated
subscription error, `ErrSettleTimeout`, line 692 propagated transactor
error, `ErrNothingToSettle`, wrapped storage-get and decode errors). -/
inductive SettlerError where
  | alreadyInProgress
  | subscriptionFailed
  | settleTimeout
  | transactorFailed
  | nothingToSettle
  | storageGetFailed
  | decodeFailed
deriving DecidableEq, Repr

/-- Which arm of the select in the waiter goroutine (part_001 lines 636-676)
fires: the stop channel, the sink (with `none` for a closed channel or
nil event), or the timeout. -/
inductive WaiterOutcome where
  | stopSignal
  | chainEvent (info : Option bindings.HermesImplementationPromiseSettled)
  | timeout
deriving DecidableEq, Repr

/-- Embeds `hermesPromiseSettler.isSettling` (part_001 lines 698-707): `false`
for a missing entry, otherwise the flag of the entry. -/
def isSettling (m : StateMap) (i : identity.Identity) : Bool :=
  match m.find i with
  | none => false
  | some v => v.settleInProgress

/-- Embeds `hermesPromiseSettler.setSettling` (part_001 lines 709-715): reads
the entry (zero value when missing), sets the flag, writes it back — so
it inserts a zero-valued entry for an unknown identity. -/
def setSettling (m : StateMap) (i : identity.Identity) (settling : Bool) : StateMap :=
  let v := m.findZero i
  m.insert i { v with settleInProgress := settling }

/-- Result of `resyncState`: the updated map, the earnings event passed
to `publishChangeEvent`, and whether the resync succeeded. -/
structure ResyncOutput where
  map : StateMap
  events : List event.AppEventEarningsChanged
  ok : Bool

/-- Embeds `hermesPromiseSettler.resyncState` (part_001 lines 385-406): fetch
the channel (pending=true) and the stored promise (`ErrNotFound` is
tolerated, yielding the zero promise), build a fresh state with
`registered = true` (and therefore `settleInProgress = false`), publish
the earnings change against the prior map read, overwrite the entry. -/
def resyncState (env : SettlerEnv) (cfg : HermesPromiseSettlerConfig)
    (m : StateMap) (i : identity.Identity) : ResyncOutput :=
  match env.getProviderChannel cfg.HermesAddress i.ToCommonAddress with
  | .error _ => ⟨m, [], false⟩
  | .ok channel =>
    match env.promiseGet i cfg.HermesAddress with
    | .storageError => ⟨m, [], false⟩
    | r =>
      let hermesPromise : HermesPromise :=
        match r with
        | .found p => p
        | _ => HermesPromise.zero
      let s : settlementState :=
        { channel := channel
          lastPromise := hermesPromise.Promise
          settleInProgress := false
          registered := true }
      ⟨m.insert i s, [⟨i, (m.findZero i).Earnings, s.Earnings⟩], true⟩

/-- Result of `loadInitialState`: map, published events, success flag
(`ok = false` models a returned error). -/
structure LoadOutput where
  map : StateMap
  events : List event.AppEventEarningsChanged
  ok : Bool

/-- Embeds `hermesPromiseSettler.loadInitialState` (part_001 lines 363-383):
no-op when state is already loaded; error when the registration status
lookup fails; no-op when the identity is not registered; otherwise
`resyncState`. -/
def loadInitialState (env : SettlerEnv) (cfg : HermesPromiseSettlerConfig)
    (m : StateMap) (addr : identity.Identity) : LoadOutput :=
  match m.find addr with
  | some _ => ⟨m, [], true⟩
  | none =>
    match env.getRegistrationStatus addr with
    | .error _ => ⟨m, [], false⟩
    | .ok status =>
      if status ≠ registry.RegistrationStatus.Registered then ⟨m, [], true⟩
      else
        let r := resyncState env cfg m addr
        ⟨r.map, r.events, r.ok⟩

/-- Embeds `hermesPromiseSettler.GetEarnings` (part_001 lines 558-564): a Go
map read (zero value for a missing key) followed by `Earnings()`; it is
a pure read and returns no updated map, matching Go map reads never
inserting. -/
def GetEarnings (m : StateMap) (i : identity.Identity) : event.Earnings :=
  (m.findZero i).Earnings

/-- Embeds `hermesPromiseSettler.initiateSettling` (part_001 lines 518-540):
fetch the promise (`ErrNotFound` and storage errors are logged and
dropped), hex-decode `R` (errors dropped), enqueue the item. The
returned list is what gets pushed onto `settleQueue`. -/
def initiateSettling (env : SettlerEnv)
    (providerID : identity.Identity) (hermesID : common.Address) :
    List receivedPromise :=
  match env.promiseGet providerID hermesID with
  | .notFound => []
  | .storageError => []
  | .found promise =>
    match hexDecodeString promise.R with
    | none => []
    | some hexR => [⟨providerID, { promise.Promise with R := hexR }⟩]

/-- Result of `handleHermesPromiseReceived`: the updated map, the
earnings events published, and the items enqueued on `settleQueue`. -/
structure HandlerOutput where
  map : StateMap
  events : List event.AppEventEarningsChanged
  enqueued : List receivedPromise

/-- Embeds `hermesPromiseSettler.handleHermesPromiseReceived` (part_001 lines
492-516): drop the event when no state exists or the provider is not
registered (both early returns happen before any update); otherwise
overwrite `lastPromise` unconditionally, publish the earnings change,
store the state, and enqueue a settling item when `needsSettling`. -/
def handleHermesPromiseReceived (env : SettlerEnv)
    (cfg : HermesPromiseSettlerConfig) (m : StateMap)
    (apep : event.AppEventHermesPromise) : HandlerOutput :=
  match m.find apep.ProviderID with
  | none => ⟨m, [], []⟩
  | some s₀ =>
    if !s₀.registered then ⟨m, [], []⟩
    else
      let s := { s₀ with lastPromise := apep.Promise }
      let ev : event.AppEventEarningsChanged :=
        ⟨apep.ProviderID, (m.findZero apep.ProviderID).Earnings, s.Earnings⟩
      let m' := m.insert apep.ProviderID s
      if s.needsSettling cfg.Threshold then
        ⟨m', [ev], initiateSettling env apep.ProviderID apep.HermesID⟩
      else
        ⟨m', [ev], []⟩

/-- Folding `handleHermesPromiseReceived` over a sequence of promise
events (the map component only). -/
def processPromises (env : SettlerEnv) (cfg : HermesPromiseSettlerConfig)
    (m : StateMap) (evs : List event.AppEventHermesPromise) : StateMap :=
  evs.foldl (fun acc e => (handleHermesPromiseReceived env cfg acc e).map) m

/-- Result of one `settle` call: the updated map, the value returned to
the caller, the transactor submissions made, the history-entry writes
attempted (with the storage success flag for each), and the earnings
events published by the resync. -/
structure SettleOutput where
  map : StateMap
  result : Except SettlerError Unit
  transactorCalls : List TransactorCall
  storedEntries : List SettlementHistoryEntry
  storeResults : List Bool
  events : List event.AppEventEarningsChanged

/-- Embeds `hermesPromiseSettler.settle` (part_001 lines 617-696), sequentialised:
reject when already settling; set the flag; on subscription failure clear
the flag and fail; submit via `SettleAndRebalance` or
`SettleWithBeneficiary` according to the beneficiary; on submission
failure the subscription is cancelled, the waiter drains and its defers
clear the flag, and the error is returned synchronously; otherwise the
select arm of the waiter (`outcome`) decides: stop signal and a closed/nil
sink end the waiter (flag cleared, `errCh` closed, caller reads `nil`); a
delivered event builds the `SettlementHistoryEntry`, attempts the history
write (failure only logged), resyncs, and the caller reads `nil`; the
timeout sends `ErrSettleTimeout` to the caller. The flag-clearing defer
runs after the resync in the event arm. -/
def settle (env : SettlerEnv) (cfg : HermesPromiseSettlerConfig)
    (m : StateMap) (p : receivedPromise) (beneficiary : Option common.Address)
    (outcome : WaiterOutcome) : SettleOutput :=
  if isSettling m p.provider then
    ⟨m, .error .alreadyInProgress, [], [], [], []⟩
  else
    let m₁ := setSettling m p.provider true
    if !env.subscribeOk then
      ⟨setSettling m₁ p.provider false, .error .subscriptionFailed, [], [], [], []⟩
    else
      let call : TransactorCall :=
        match beneficiary with
        | none =>
            .SettleAndRebalance cfg.HermesAddress.Hex p.provider.Address p.promise
        | some b =>
            .SettleWithBeneficiary p.provider.Address b.Hex cfg.HermesAddress.Hex p.promise
      let submitOk : Bool :=
        match beneficiary with
        | none => env.settleAndRebalanceOk
        | some _ => env.settleWithBeneficiaryOk
      if !submitOk then
        ⟨setSettling m₁ p.provider false, .error .transactorFailed, [call], [], [], []⟩
      else
        match outcome with
        | .stopSignal =>
            ⟨setSettling m₁ p.provider false, .ok (), [call], [], [], []⟩
        | .chainEvent none =>
            ⟨setSettling m₁ p.provider false, .ok (), [call], [], [], []⟩
        | .chainEvent (some info) =>
            let she : SettlementHistoryEntry :=
              { TxHash := info.Raw.TxHash
                Promise := p.promise
                Amount := info.Amount
                TotalSettled := info.TotalSettled
                Beneficiary := beneficiary }
            let r := resyncState env cfg m₁ p.provider
            ⟨setSettling r.map p.provider false, .ok (), [call], [she],
              [env.storeOk], r.events⟩
        | .timeout =>
            ⟨setSettling m₁ p.provider false, .error .settleTimeout, [call], [], [], []⟩

/-- Embeds `hermesPromiseSettler.ForceSettle` (part_001 lines 570-589): load the
promise (`ErrNotFound → ErrNothingToSettle`), decode `R`, settle with no
beneficiary. -/
def ForceSettle (env : SettlerEnv) (cfg : HermesPromiseSettlerConfig)
    (m : StateMap) (providerID : identity.Identity) (hermesID : common.Address)
    (outcome : WaiterOutcome) : SettleOutput :=
  match env.promiseGet providerID hermesID with
  | .notFound => ⟨m, .error .nothingToSettle, [], [], [], []⟩
  | .storageError => ⟨m, .error .storageGetFailed, [], [], [], []⟩
  | .found promise =>
    match hexDecodeString promise.R with
    | none => ⟨m, .error .decodeFailed, [], [], [], []⟩
    | some hexR =>
        settle env cfg m ⟨providerID, { promise.Promise with R := hexR }⟩ none outcome

/-- Embeds `hermesPromiseSettler.SettleWithBeneficiary` (part_001 lines 592-612):
same as `ForceSettle` with the beneficiary threaded through. -/
def SettleWithBeneficiary (env : SettlerEnv) (cfg : HermesPromiseSettlerConfig)
    (m : StateMap) (providerID : identity.Identity)
    (beneficiary hermesID : common.Address) (outcome : WaiterOutcome) : SettleOutput :=
  match env.promiseGet providerID hermesID with
  | .notFound => ⟨m, .error .nothingToSettle, [], [], [], []⟩
  | .storageError => ⟨m, .error .storageGetFailed, [], [], [], []⟩
  | .found promise =>
    match hexDecodeString promise.R with
    | none => ⟨m, .error .decodeFailed, [], [], [], []⟩
    | some hexR =>
        settle env cfg m ⟨providerID, { promise.Promise with R := hexR }⟩
          (some beneficiary) outcome

/-- Embeds `hermesPromiseSettler.listenForSettlementRequests` (part_001 lines
542-556) draining a queue: each dequeued item is settled with no
beneficiary; the transactor calls of every settle are collected. -/
def dispatchQueue (env : SettlerEnv) (cfg : HermesPromiseSettlerConfig) :
    StateMap → List (receivedPromise × WaiterOutcome) → StateMap × List TransactorCall
  | m, [] => (m, [])
  | m, (p, o) :: rest =>
    let out := settle env cfg m p none o
    let next := dispatchQueue env cfg out.map rest
    (next.1, out.transactorCalls ++ next.2)

/-- Key preservation between two maps: no entry is ever deleted. -/
def keysPreserved (m m₂ : StateMap) : Prop :=
  ∀ i, (m.find i).isSome = true → (m₂.find i).isSome = true

/-!
Interleaving model of concurrent `settle` invocations for one provider,
at the granularity of the lock-protected sections of part_001: the
`isSettling` read (line 618, shared lock, lines 698-707), the
`setSettling true` write (line 622, exclusive lock, lines 709-715), and
the flag-clearing defer of the waiter (line 634). Each thread is one
`settle` call; a phase is its program counter between those sections.
-/

/-- Phase of one `settle` invocation: before the `isSettling` check
(line 618); after a check that observed `false` but before
`setSettling true` (line 622); settlement outstanding (flag set,
submission and waiter in flight, lines 624-695); finished (the defer at
line 634 cleared the flag); or rejected at line 619. -/
inductive SettlePhase where
  | start
  | checked
  | inFlight
  | finished
  | rejected
deriving DecidableEq, Repr

/-- Shared flag (`settleInProgress` of the one provider) plus the phase
of every concurrent `settle` invocation. -/
structure ConcState where
  flag : Bool
  threads : List SettlePhase
deriving DecidableEq, Repr

/-- Whether a phase denotes an outstanding settlement. -/
def SettlePhase.isInFlight : SettlePhase → Bool
  | .inFlight => true
  | _ => false

/-- Number of outstanding settlements (threads between `setSettling true`
and the flag-clearing defer). -/
def outstanding (s : ConcState) : Nat :=
  s.threads.countP SettlePhase.isInFlight

/-- One atomic action of thread `i`, at the lock granularity of the
source: `isSettling` and `setSettling` take the lock separately, so the
check and the set of one `settle` call are two distinct steps. -/
def stepThread (s : ConcState) (i : Nat) : ConcState :=
  match s.threads[i]? with
  | none => s
  | some ph =>
    match ph with
    | .start =>
        if s.flag then { s with threads := s.threads.set i .rejected }
        else { s with threads := s.threads.set i .checked }
    | .checked => { flag := true, threads := s.threads.set i .inFlight }
    | .inFlight => { flag := false, threads := s.threads.set i .finished }
    | _ => s

/-- Run a schedule (list of thread indices) in the lock-granularity
model. -/
def runSched (s : ConcState) (sched : List Nat) : ConcState :=
  sched.foldl stepThread s

/-- One atomic action of thread `i` in the repaired model where the
`isSettling` check and `setSettling true` execute as one critical
section (check-and-set under a single lock acquisition). -/
def stepThreadAtomic (s : ConcState) (i : Nat) : ConcState :=
  match s.threads[i]? with
  | none => s
  | some ph =>
    match ph with
    | .start =>
        if s.flag then { s with threads := s.threads.set i .rejected }
        else { flag := true, threads := s.threads.set i .inFlight }
    | .inFlight => { flag := false, threads := s.threads.set i .finished }
    | _ => s

/-- Run a schedule in the atomic check-and-set model. -/
def runSchedAtomic (s : ConcState) (sched : List Nat) : ConcState :=
  sched.foldl stepThreadAtomic s

/-- Initial state: flag clear, `n` concurrent `settle` invocations about
to run. -/
def initConc (n : Nat) : ConcState :=
  ⟨false, List.replicate n SettlePhase.start⟩

/-!
Concrete fixtures used by counterexamples and witnesses.
-/

/-- An environment in which every collaborator call fails or finds
nothing. -/
def envNone : SettlerEnv :=
  { getProviderChannel := fun _ _ => .error ()
    promiseGet := fun _ _ => .notFound
    getRegistrationStatus := fun _ => .error ()
    subscribeOk := false
    storeOk := false
    settleAndRebalanceOk := false
    settleWithBeneficiaryOk := false }

/-- A provider identity used in concrete scenarios. -/
def pFix : identity.Identity := ⟨"0xprov"⟩

/-- A hermes address used in concrete scenarios. -/
def hFix : common.Address := ⟨"0xhermes"⟩

/-- A beneficiary address used in concrete scenarios. -/
def bFix : common.Address := ⟨"0xbenef"⟩

/-- A configuration with threshold 0 used in concrete scenarios. -/
def cfgFix : HermesPromiseSettlerConfig :=
  { HermesAddress := hFix, Threshold := 0, MaxWaitForSettlement := 100 }

/-- A registered state with an empty channel view and a zero promise. -/
def sRegFix : settlementState :=
  { channel := ⟨none, none⟩
    lastPromise := ⟨0, []⟩
    settleInProgress := false
    registered := true }

/-- An unregistered state with an empty channel view and a zero promise. -/
def sUnregFix : settlementState :=
  { channel := ⟨none, none⟩
    lastPromise := ⟨0, []⟩
    settleInProgress := false
    registered := false }

/-- A map holding only the registered fixture state for `pFix`. -/
def mRegFix : StateMap := [(pFix, sRegFix)]

/-- A map holding only the unregistered fixture state for `pFix`. -/
def mUnregFix : StateMap := [(pFix, sUnregFix)]

/-- A promise event for `pFix` with amount 5. -/
def ev5Fix : event.AppEventHermesPromise := ⟨pFix, hFix, ⟨5, []⟩⟩

/-- A promise event for `pFix` with amount 3. -/
def ev3Fix : event.AppEventHermesPromise := ⟨pFix, hFix, ⟨3, []⟩⟩

/-- A promise event for `pFix` with amount 7. -/
def ev7Fix : event.AppEventHermesPromise := ⟨pFix, hFix, ⟨7, []⟩⟩

/-- An environment in which `pFix` has a stored promise of amount 9 with
an empty (hence decodable) `R`, the channel view reads
`balance = 10, settled = 4`, the identity is registered, and the
subscription, history write and both transactor submissions succeed. -/
def envOkFix : SettlerEnv :=
  { getProviderChannel := fun _ _ => .ok ⟨some 10, some 4⟩
    promiseGet := fun _ _ => .found ⟨⟨9, []⟩, ""⟩
    getRegistrationStatus := fun _ => .ok .Registered
    subscribeOk := true
    storeOk := true
    settleAndRebalanceOk := true
    settleWithBeneficiaryOk := true }

/-- A settled-event payload used in concrete scenarios. -/
def infoFix : bindings.HermesImplementationPromiseSettled :=
  { Raw := ⟨"0xtxhash"⟩, Amount := 9, TotalSettled := 13 }

/-!
Helper lemmas about the map embedding.
-/

theorem StateMap.find_insert_self (m : StateMap) (i : identity.Identity)
    (s : settlementState) : (m.insert i s).find i = some s := by
  induction m with
  | nil => simp [StateMap.insert, StateMap.find]
  | cons kv rest ih =>
      obtain ⟨k, v⟩ := kv
      by_cases h : k = i <;> simp [StateMap.insert, StateMap.find, h, ih]

theorem StateMap.find_insert_of_ne (m : StateMap) (i k : identity.Identity)
    (s : settlementState) (h : k ≠ i) : (m.insert i s).find k = m.find k := by
  have h' : i ≠ k := Ne.symm h
  induction m with
  | nil => simp [StateMap.insert, StateMap.find, h']
  | cons kv rest ih =>
      obtain ⟨k₂, v⟩ := kv
      by_cases h₂ : k₂ = i
      · subst h₂
        simp [StateMap.insert, StateMap.find, h']
      · simp [StateMap.insert, StateMap.find, h₂, ih]

theorem StateMap.insert_insert (m : StateMap) (i : identity.Identity)
    (s t : settlementState) : (m.insert i s).insert i t = m.insert i t := by
  induction m with
  | nil => simp [StateMap.insert]
  | cons kv rest ih =>
      obtain ⟨k, v⟩ := kv
      by_cases h : k = i <;> simp [StateMap.insert, h, ih]

theorem StateMap.insert_self_of_find (m : StateMap) (i : identity.Identity)
    (v : settlementState) (h : m.find i = some v) : m.insert i v = m := by
  induction m with
  | nil => simp [StateMap.find] at h
  | cons kv rest ih =>
      obtain ⟨k, w⟩ := kv
      by_cases hk : k = i
      · subst hk
        simp [StateMap.find] at h
        simp [StateMap.insert, h]
      · simp [StateMap.find, hk] at h
        simp [StateMap.insert, hk, ih h]

theorem keysPreserved_refl (m : StateMap) : keysPreserved m m :=
  fun _ h => h

theorem keysPreserved_trans {m₁ m₂ m₃ : StateMap}
    (h₁ : keysPreserved m₁ m₂) (h₂ : keysPreserved m₂ m₃) :
    keysPreserved m₁ m₃ :=
  fun i h => h₂ i (h₁ i h)

theorem keysPreserved_insert (m : StateMap) (i : identity.Identity)
    (s : settlementState) : keysPreserved m (m.insert i s) := by
  intro k hk
  by_cases h : k = i
  · subst h
    simp [StateMap.find_insert_self]
  · rwa [StateMap.find_insert_of_ne m i k s h]

theorem setSettling_of_find {m : StateMap} {i : identity.Identity}
    {v : settlementState} (b : Bool) (h : m.find i = some v) :
    setSettling m i b = m.insert i { v with settleInProgress := b } := by
  simp [setSettling, StateMap.findZero, h]

theorem keysPreserved_setSettling (m : StateMap) (i : identity.Identity)
    (b : Bool) : keysPreserved m (setSettling m i b) :=
  keysPreserved_insert m i _

/-- Setting the flag to the value it already has is the identity on the
state record. -/
theorem settlementState.setFlag_self {ss : settlementState} {b : Bool}
    (h : ss.settleInProgress = b) : { ss with settleInProgress := b } = ss := by
  cases ss
  simp_all

/-- Marking a provider as settling and then unmarking it restores the
original map whenever the provider had an entry with a clear flag. -/
theorem setSettling_roundtrip {m : StateMap} {i : identity.Identity}
    {s₀ : settlementState} (hfind : m.find i = some s₀)
    (hflag : s₀.settleInProgress = false) :
    setSettling (setSettling m i true) i false = m := by
  rw [setSettling_of_find true hfind]
  rw [setSettling_of_find false (StateMap.find_insert_self m i _)]
  rw [StateMap.insert_insert]
  apply StateMap.insert_self_of_find
  rw [hfind]
  congr 1
  obtain ⟨ch, lp, ip, reg⟩ := s₀
  simp_all

theorem isSettling_of_find {m : StateMap} {i : identity.Identity}
    {s₀ : settlementState} (hfind : m.find i = some s₀) :
    isSettling m i = s₀.settleInProgress := by
  simp [isSettling, hfind]

theorem isSettling_setSettling_self (m : StateMap) (i : identity.Identity)
    (b : Bool) : isSettling (setSettling m i b) i = b := by
  simp [isSettling, setSettling, StateMap.find_insert_self]

/-!
Claim C1 — the settlement policy.
-/

/-- C1: `needs_settling(state, threshold)` returns false when the state
is not registered or a settle is in progress; otherwise, with
`T = threshold * available_balance` where
`available_balance = channel.balance + channel.settled`,
`unsettled_balance = sat_sub(last_promise.amount, channel.settled)` and
`balance = sat_sub(available_balance, last_promise.amount)` (saturating
subtractions), it returns false when `unsettled_balance < T`, true when
`unsettled_balance ≥ T` and `balance < T`, and false otherwise. Stated
for channel values within `uint64` range, where the Go truncations are
the identity. -/
theorem needsSettling_policy (ss : settlementState) (b s : Nat) (threshold : ℚ)
    (hch : ss.channel = ⟨some b, some s⟩)
    (hb : b < UINT64_MOD) (hs : s < UINT64_MOD) (hbs : b + s < UINT64_MOD) :
    ss.needsSettling threshold = true ↔
      (ss.registered = true ∧ ss.settleInProgress = false ∧
        ¬ ((safeSub ss.lastPromise.Amount s : ℚ) < threshold * ((b + s : Nat) : ℚ)) ∧
        ((safeSub (b + s) ss.lastPromise.Amount : ℚ) < threshold * ((b + s : Nat) : ℚ))) := by
  have hA : ss.availableBalance = b + s := by
    simp [settlementState.availableBalance, hch, Nat.mod_eq_of_lt hb,
      Nat.mod_eq_of_lt hs, Nat.mod_eq_of_lt hbs]
  have hU : ss.unsettledBalance = safeSub ss.lastPromise.Amount s := by
    simp [settlementState.unsettledBalance, hch, Nat.mod_eq_of_lt hs]
  have hB : ss.balance = safeSub (b + s) ss.lastPromise.Amount := by
    simp [settlementState.balance, hA]
  simp only [settlementState.needsSettling, hA, hU, hB]
  cases hr : ss.registered <;> cases hp : ss.settleInProgress <;> simp [hr, hp]

/-- Witness for C1 at the concrete state
`channel = (balance 10, settled 0)`, `last_promise.amount = 10`,
registered, no settle in progress, threshold 1: the policy fires. -/
theorem needsSettling_policy_witness :
    ((10 : Nat) < UINT64_MOD ∧ (0 : Nat) < UINT64_MOD ∧ (10 + 0 : Nat) < UINT64_MOD) ∧
    (settlementState.needsSettling
        ⟨⟨some 10, some 0⟩, ⟨10, []⟩, false, true⟩ 1 = true ↔
      ((true : Bool) = true ∧ (false : Bool) = false ∧
        ¬ ((safeSub 10 0 : ℚ) < 1 * ((10 + 0 : Nat) : ℚ)) ∧
        ((safeSub (10 + 0) 10 : ℚ) < 1 * ((10 + 0 : Nat) : ℚ)))) :=
  ⟨⟨by decide, by decide, by decide⟩,
    needsSettling_policy ⟨⟨some 10, some 0⟩, ⟨10, []⟩, false, true⟩ 10 0 1 rfl
      (by decide) (by decide) (by decide)⟩

/-!
Claim C2 — promise monotonicity.
-/

/-- The promise handler, on a registered provider with existing state,
stores the incoming promise unconditionally (part_001 lines 507-510);
the resulting map in both branches of the `needsSettling` check. -/
theorem handleHermesPromiseReceived_map_of_registered
    (env : SettlerEnv) (cfg : HermesPromiseSettlerConfig) (m : StateMap)
    (apep : event.AppEventHermesPromise) (s₀ : settlementState)
    (hfind : m.find apep.ProviderID = some s₀) (hreg : s₀.registered = true) :
    (handleHermesPromiseReceived env cfg m apep).map
      = m.insert apep.ProviderID { s₀ with lastPromise := apep.Promise } := by
  simp only [handleHermesPromiseReceived, hfind, hreg, Bool.not_true,
    Bool.false_eq_true, ite_false]
  split <;> rfl

/-- Processing a promise sequence for a registered provider with an
existing entry keeps the entry registered and leaves as its stored
promise the last one received (the prior one for the empty sequence). -/
theorem processPromises_getLast (env : SettlerEnv)
    (cfg : HermesPromiseSettlerConfig) (p : identity.Identity)
    (h : common.Address) (prs : List crypto.Promise) :
    ∀ (m : StateMap) (s₀ : settlementState),
      m.find p = some s₀ → s₀.registered = true →
      ∃ s₂, (processPromises env cfg m
          (prs.map (fun pr => ⟨p, h, pr⟩))).find p = some s₂ ∧
        s₂.registered = true ∧
        s₂.lastPromise = prs.getLastD s₀.lastPromise := by
  induction prs with
  | nil =>
      intro m s₀ hfind hreg
      exact ⟨s₀, hfind, hreg, rfl⟩
  | cons pr rest ih =>
      intro m s₀ hfind hreg
      have hmap := handleHermesPromiseReceived_map_of_registered env cfg m
        ⟨p, h, pr⟩ s₀ hfind hreg
      have hstep : processPromises env cfg m
          (((pr :: rest)).map (fun q => ⟨p, h, q⟩))
          = processPromises env cfg
              (m.insert p { s₀ with lastPromise := pr })
              (rest.map (fun q => ⟨p, h, q⟩)) := by
        simp only [List.map_cons, processPromises, List.foldl_cons]
        rw [show (handleHermesPromiseReceived env cfg m ⟨p, h, pr⟩).map
          = m.insert p { s₀ with lastPromise := pr } from hmap]
      rw [hstep, List.getLastD_cons]
      exact ih (m.insert p { s₀ with lastPromise := pr })
        { s₀ with lastPromise := pr }
        (StateMap.find_insert_self m p _) hreg

/-- C2 counterexample: starting from the registered fixture state with
stored amount 0, processing promise events with amounts 5 then 3 leaves
stored amount 3, not the maximum 5 — the incoming smaller promise is
not discarded (part_001 line 507 overwrites unconditionally). -/
theorem promise_overwrite_counterexample :
    ((processPromises envNone cfgFix mRegFix [ev5Fix, ev3Fix]).find pFix).map
        settlementState.lifetimeBalance = some 3 ∧ (3 : Nat) < 5 := by
  obtain ⟨s₂, hfind, hreg, hlast⟩ := processPromises_getLast envNone cfgFix
    pFix hFix [⟨5, []⟩, ⟨3, []⟩] mRegFix sRegFix rfl rfl
  constructor
  · rw [show ([ev5Fix, ev3Fix] : List event.AppEventHermesPromise)
        = [⟨(5 : Nat), ([] : List Nat)⟩, ⟨3, []⟩].map
            (fun pr => ⟨pFix, hFix, pr⟩) from rfl]
    rw [hfind]
    simp [settlementState.lifetimeBalance, hlast, List.getLastD]
  · decide

/-- C2 amended: for a provider with an existing registered state, the
handler overwrites the stored promise unconditionally, so after any
sequence of promise events the stored `last_promise` equals the last
promise received (not the maximum); the entry stays registered. -/
theorem promise_last_write_wins (env : SettlerEnv)
    (cfg : HermesPromiseSettlerConfig) (p : identity.Identity)
    (h : common.Address) (prs : List crypto.Promise) (m : StateMap)
    (s₀ : settlementState) (hfind : m.find p = some s₀)
    (hreg : s₀.registered = true) :
    ∃ s₂, (processPromises env cfg m
        (prs.map (fun pr => ⟨p, h, pr⟩))).find p = some s₂ ∧
      s₂.registered = true ∧
      s₂.lastPromise = prs.getLastD s₀.lastPromise :=
  processPromises_getLast env cfg p h prs m s₀ hfind hreg

/-- Witness for the amended C2: processing amounts 5 then 3 on the
registered fixture yields a stored promise equal to the last received
(amount 3). -/
theorem promise_last_write_wins_witness :
    mRegFix.find pFix = some sRegFix ∧ sRegFix.registered = true ∧
    ∃ s₂, (processPromises envNone cfgFix mRegFix
        ([⟨5, []⟩, ⟨3, []⟩].map (fun pr => ⟨pFix, hFix, pr⟩))).find pFix = some s₂ ∧
      s₂.registered = true ∧
      s₂.lastPromise = [⟨(5 : Nat), ([] : List Nat)⟩,
        ⟨3, []⟩].getLastD sRegFix.lastPromise :=
  ⟨rfl, rfl, promise_last_write_wins envNone cfgFix pFix hFix
    [⟨5, []⟩, ⟨3, []⟩] mRegFix sRegFix rfl rfl⟩

/-!
Claim C3 — at most one outstanding settlement per provider.
-/

/-- Replacing the element at a position changes a count by the value
swap at that position. -/
theorem countP_set (pb : SettlePhase → Bool) :
    ∀ (l : List SettlePhase) (i : Nat) (a b : SettlePhase), l[i]? = some b →
      (l.set i a).countP pb + (if pb b then 1 else 0)
        = l.countP pb + (if pb a then 1 else 0) := by
  intro l
  induction l with
  | nil => intro i a b h; simp at h
  | cons c rest ih =>
      intro i a b h
      cases i with
      | zero =>
          simp only [List.getElem?_cons_zero, Option.some.injEq] at h
          subst h
          simp [List.countP_cons]
          omega
      | succ n =>
          simp only [List.getElem?_cons_succ] at h
          have := ih n a b h
          simp [List.countP_cons]
          omega

/-- A list containing an element satisfying the predicate has a positive
count. -/
theorem countP_pos_of_getElem (l : List SettlePhase) (i : Nat)
    (b : SettlePhase) (pb : SettlePhase → Bool) (h : l[i]? = some b)
    (hb : pb b = true) : 0 < l.countP pb :=
  List.countP_pos_iff.mpr ⟨b, List.getElem?_mem h, hb⟩

/-- In the atomic check-and-set model, one step preserves the invariant
that the number of in-flight settlements is 1 when the flag is set and 0
when it is clear. -/
theorem stepThreadAtomic_invariant (s : ConcState) (i : Nat)
    (h : outstanding s = if s.flag then 1 else 0) :
    outstanding (stepThreadAtomic s i)
      = if (stepThreadAtomic s i).flag then 1 else 0 := by
  unfold stepThreadAtomic
  cases hget : s.threads[i]? with
  | none => simpa using h
  | some ph =>
      cases ph with
      | start =>
          cases hflag : s.flag with
          | true =>
              have hc := countP_set SettlePhase.isInFlight
                s.threads i SettlePhase.rejected SettlePhase.start hget
              simp [SettlePhase.isInFlight] at hc
              have h1 : List.countP SettlePhase.isInFlight s.threads = 1 := by
                have h2 := h
                rw [hflag] at h2
                simpa [outstanding] using h2
              show List.countP SettlePhase.isInFlight
                (s.threads.set i SettlePhase.rejected) = 1
              omega
          | false =>
              have hc := countP_set SettlePhase.isInFlight
                s.threads i SettlePhase.inFlight SettlePhase.start hget
              simp [SettlePhase.isInFlight] at hc
              have h0 : List.countP SettlePhase.isInFlight s.threads = 0 := by
                have h2 := h
                rw [hflag] at h2
                simpa [outstanding] using h2
              show List.countP SettlePhase.isInFlight
                (s.threads.set i SettlePhase.inFlight) = 1
              omega
      | checked => simpa using h
      | inFlight =>
          have hpos := countP_pos_of_getElem s.threads i SettlePhase.inFlight
            SettlePhase.isInFlight hget rfl
          have hflag : s.flag = true := by
            cases hflag : s.flag
            · exfalso
              have h0 : List.countP SettlePhase.isInFlight s.threads = 0 := by
                have h2 := h
                rw [hflag] at h2
                simpa [outstanding] using h2
              omega
            · rfl
          have hc := countP_set SettlePhase.isInFlight
            s.threads i SettlePhase.finished SettlePhase.inFlight hget
          simp [SettlePhase.isInFlight] at hc
          have h1 : List.countP SettlePhase.isInFlight s.threads = 1 := by
            have h2 := h
            rw [hflag] at h2
            simpa [outstanding] using h2
          show List.countP SettlePhase.isInFlight
            (s.threads.set i SettlePhase.finished) = 0
          omega
      | finished => simpa using h
      | rejected => simpa using h

/-- The invariant of `stepThreadAtomic_invariant` is preserved by whole
schedules. -/
theorem runSchedAtomic_invariant (sched : List Nat) :
    ∀ s : ConcState, outstanding s = (if s.flag then 1 else 0) →
      outstanding (runSchedAtomic s sched)
        = if (runSchedAtomic s sched).flag then 1 else 0 := by
  induction sched with
  | nil => intro s h; simpa [runSchedAtomic] using h
  | cons i rest ih =>
      intro s h
      have hstep := stepThreadAtomic_invariant s i h
      simpa [runSchedAtomic, List.foldl_cons] using
        ih (stepThreadAtomic s i) hstep

/-- C3 counterexample: in the lock-granularity model of the source —
`isSettling` (shared lock) and `setSettling` (exclusive lock) are
separate critical sections — two concurrent `settle` calls for the same
provider can both pass the check before either sets the flag
(schedule: check₀, check₁, set₀, set₁), leaving two settlements
outstanding at once, so the at-most-one invariant of the claim fails. -/
theorem settle_check_set_race :
    outstanding (runSched ⟨false, [SettlePhase.start, SettlePhase.start]⟩
      [0, 1, 0, 1]) = 2 := by decide

/-- C3 amended: when the already-in-progress check and the flag set
execute as one critical section (serialised settle admission), at most
one settlement per provider is outstanding at every instant; moreover a
`settle` call that observes the flag set is rejected with the
already-in-progress error without touching the state, and
`needs_settling` returns false whenever the flag is set, so
promise-triggered settle attempts are dropped while a settlement is
outstanding. -/
theorem settle_at_most_one :
    (∀ (n : Nat) (sched : List Nat),
      outstanding (runSchedAtomic (initConc n) sched) ≤ 1) ∧
    (∀ (env : SettlerEnv) (cfg : HermesPromiseSettlerConfig) (m : StateMap)
        (p : receivedPromise) (ben : Option common.Address) (o : WaiterOutcome),
      isSettling m p.provider = true →
        settle env cfg m p ben o
          = ⟨m, .error .alreadyInProgress, [], [], [], []⟩) ∧
    (∀ (ss : settlementState) (t : ℚ), ss.settleInProgress = true →
      ss.needsSettling t = false) := by
  refine ⟨?_, ?_, ?_⟩
  · intro n sched
    have hinit : outstanding (initConc n) = if (initConc n).flag then 1 else 0 := by
      have hz : List.countP SettlePhase.isInFlight
          (List.replicate n SettlePhase.start) = 0 :=
        List.countP_eq_zero.mpr (by
          intro a ha
          rw [List.eq_of_mem_replicate ha]
          decide)
      simpa [outstanding, initConc] using hz
    have := runSchedAtomic_invariant sched (initConc n) hinit
    rw [this]
    split <;> omega
  · intro env cfg m p ben o h
    simp [settle, h]
  · intro ss t h
    unfold settlementState.needsSettling
    cases hr : ss.registered <;> simp [h]

/-- Witness for the amended C3: with two concurrent settle calls and the
racing schedule, the atomic model keeps at most one settlement
outstanding; and `settle` on the fixture map with the flag set is
rejected. -/
theorem settle_at_most_one_witness :
    outstanding (runSchedAtomic (initConc 2) [0, 1, 0, 1]) ≤ 1 ∧
    (isSettling [(pFix, { sRegFix with settleInProgress := true })] pFix = true ∧
      settle envNone cfgFix [(pFix, { sRegFix with settleInProgress := true })]
          ⟨pFix, ⟨0, []⟩⟩ none .timeout
        = ⟨[(pFix, { sRegFix with settleInProgress := true })],
            .error .alreadyInProgress, [], [], [], []⟩) :=
  ⟨settle_at_most_one.1 2 [0, 1, 0, 1],
    ⟨rfl, settle_at_most_one.2.1 envNone cfgFix
      [(pFix, { sRegFix with settleInProgress := true })]
      ⟨pFix, ⟨0, []⟩⟩ none .timeout rfl⟩⟩

/-!
Claim C4 — the timeout path.
-/

/-- C4: when the chain confirmation does not arrive within
`max_wait_for_settlement` (the timeout arm of the waiter fires), the
caller of `settle` receives `ErrSettleTimeout`, the in-progress flag for
the provider is clear afterwards while the rest of its state is
unchanged (the final map equals the initial one), and a subsequent
`ForceSettle` for the provider is not rejected as already in
progress. -/
theorem settle_timeout_path (env : SettlerEnv)
    (cfg : HermesPromiseSettlerConfig) (m : StateMap) (p : receivedPromise)
    (s₀ : settlementState) (hfind : m.find p.provider = some s₀)
    (hflag : s₀.settleInProgress = false) (hsub : env.subscribeOk = true)
    (hsubmit : env.settleAndRebalanceOk = true) :
    (settle env cfg m p none .timeout).result = .error .settleTimeout ∧
    (settle env cfg m p none .timeout).map = m ∧
    isSettling (settle env cfg m p none .timeout).map p.provider = false ∧
    (∀ (env₂ : SettlerEnv) (hermesID : common.Address) (o₂ : WaiterOutcome),
      (ForceSettle env₂ cfg (settle env cfg m p none .timeout).map
          p.provider hermesID o₂).result ≠ .error .alreadyInProgress) := by
  have hnots : isSettling m p.provider = false := by
    rw [isSettling_of_find hfind, hflag]
  have hout : settle env cfg m p none .timeout
      = ⟨setSettling (setSettling m p.provider true) p.provider false,
          .error .settleTimeout, [.SettleAndRebalance cfg.HermesAddress.Hex
            p.provider.Address p.promise], [], [], []⟩ := by
    simp [settle, hnots, hsub, hsubmit]
  have hmap : (settle env cfg m p none .timeout).map = m := by
    rw [hout]
    exact setSettling_roundtrip hfind hflag
  refine ⟨by rw [hout], hmap, ?_, ?_⟩
  · rw [hmap, isSettling_of_find hfind, hflag]
  · intro env₂ hermesID o₂
    rw [hmap]
    unfold ForceSettle
    cases env₂.promiseGet p.provider hermesID with
    | notFound => simp
    | storageError => simp
    | found promise =>
        simp only []
        cases hexDecodeString promise.R with
        | none => simp
        | some hexR =>
            simp only []
            unfold settle
            rw [hnots]
            simp only [Bool.false_eq_true, if_false]
            split
            · simp
            · split
              · simp
              · cases o₂ with
                | stopSignal => simp
                | chainEvent info => cases info <;> simp
                | timeout => simp

/-- Witness for C4: concrete timeout run on the registered fixture with
the all-success environment. -/
theorem settle_timeout_path_witness :
    mRegFix.find pFix = some sRegFix ∧ sRegFix.settleInProgress = false ∧
    envOkFix.subscribeOk = true ∧ envOkFix.settleAndRebalanceOk = true ∧
    ((settle envOkFix cfgFix mRegFix ⟨pFix, ⟨9, []⟩⟩ none .timeout).result
        = .error .settleTimeout ∧
      (settle envOkFix cfgFix mRegFix ⟨pFix, ⟨9, []⟩⟩ none .timeout).map = mRegFix ∧
      isSettling (settle envOkFix cfgFix mRegFix ⟨pFix, ⟨9, []⟩⟩ none .timeout).map
        pFix = false ∧
      (∀ (env₂ : SettlerEnv) (hermesID : common.Address) (o₂ : WaiterOutcome),
        (ForceSettle env₂ cfgFix
            (settle envOkFix cfgFix mRegFix ⟨pFix, ⟨9, []⟩⟩ none .timeout).map
            pFix hermesID o₂).result ≠ .error .alreadyInProgress)) :=
  ⟨rfl, rfl, rfl, rfl,
    settle_timeout_path envOkFix cfgFix mRegFix ⟨pFix, ⟨9, []⟩⟩ sRegFix
      rfl rfl rfl rfl⟩

/-!
Claim C5 — the confirmation path and non-fatal history-write failure.
-/

/-- C5: when the settled event is delivered, exactly one history entry —
carrying the event tx hash, the submitted promise, and the event amount
and total settled — is written, `resyncState` runs afterwards (the final
entry for the provider is the freshly fetched channel and promise with
the flag clear), the caller receives success, and flipping the success
of the history write changes neither the final map, nor the result, nor
the entry written: the write failure is not fatal. -/
theorem settle_event_path (env : SettlerEnv)
    (cfg : HermesPromiseSettlerConfig) (m : StateMap) (p : receivedPromise)
    (ben : Option common.Address)
    (info : bindings.HermesImplementationPromiseSettled)
    (s₀ : settlementState) (ch : client.ProviderChannel) (hp : HermesPromise)
    (hfind : m.find p.provider = some s₀)
    (hflag : s₀.settleInProgress = false)
    (hsub : env.subscribeOk = true)
    (har : env.settleAndRebalanceOk = true)
    (hwb : env.settleWithBeneficiaryOk = true)
    (hch : env.getProviderChannel cfg.HermesAddress p.provider.ToCommonAddress
      = .ok ch)
    (hpr : env.promiseGet p.provider cfg.HermesAddress = .found hp) :
    (settle env cfg m p ben (.chainEvent (some info))).storedEntries
      = [⟨info.Raw.TxHash, p.promise, info.Amount, info.TotalSettled, ben⟩] ∧
    (settle env cfg m p ben (.chainEvent (some info))).map.find p.provider
      = some ⟨ch, hp.Promise, false, true⟩ ∧
    (settle env cfg m p ben (.chainEvent (some info))).result = .ok () ∧
    (∀ b : Bool,
      (settle { env with storeOk := b } cfg m p ben
          (.chainEvent (some info))).map
        = (settle env cfg m p ben (.chainEvent (some info))).map ∧
      (settle { env with storeOk := b } cfg m p ben
          (.chainEvent (some info))).result = .ok () ∧
      (settle { env with storeOk := b } cfg m p ben
          (.chainEvent (some info))).storedEntries
        = (settle env cfg m p ben (.chainEvent (some info))).storedEntries) := by
  have hnots : isSettling m p.provider = false := by
    rw [isSettling_of_find hfind, hflag]
  have hresync : ∀ (e : SettlerEnv), e.getProviderChannel = env.getProviderChannel →
      e.promiseGet = env.promiseGet →
      resyncState e cfg (setSettling m p.provider true) p.provider
        = ⟨(setSettling m p.provider true).insert p.provider
              ⟨ch, hp.Promise, false, true⟩,
            [⟨p.provider,
              ((setSettling m p.provider true).findZero p.provider).Earnings,
              (⟨ch, hp.Promise, false, true⟩ : settlementState).Earnings⟩],
            true⟩ := by
    intro e hec hep
    unfold resyncState
    rw [hec, hep, hch, hpr]
  have hout : ∀ (e : SettlerEnv), e.subscribeOk = true →
      e.settleAndRebalanceOk = true → e.settleWithBeneficiaryOk = true →
      e.getProviderChannel = env.getProviderChannel →
      e.promiseGet = env.promiseGet →
      settle e cfg m p ben (.chainEvent (some info))
        = ⟨setSettling ((setSettling m p.provider true).insert p.provider
              ⟨ch, hp.Promise, false, true⟩) p.provider false,
            .ok (),
            [match ben with
              | none => .SettleAndRebalance cfg.HermesAddress.Hex
                  p.provider.Address p.promise
              | some b => .SettleWithBeneficiary p.provider.Address b.Hex
                  cfg.HermesAddress.Hex p.promise],
            [⟨info.Raw.TxHash, p.promise, info.Amount, info.TotalSettled, ben⟩],
            [e.storeOk],
            [⟨p.provider,
              ((setSettling m p.provider true).findZero p.provider).Earnings,
              (⟨ch, hp.Promise, false, true⟩ : settlementState).Earnings⟩]⟩ := by
    intro e h₁ h₂ h₃ hec hep
    have hr := hresync e hec hep
    unfold settle
    rw [hnots]
    cases ben <;> simp [h₁, h₂, h₃, hr]
  have hself := hout env hsub har hwb rfl rfl
  have hmapfind : (setSettling ((setSettling m p.provider true).insert p.provider
        ⟨ch, hp.Promise, false, true⟩) p.provider false).find p.provider
      = some ⟨ch, hp.Promise, false, true⟩ := by
    rw [setSettling_of_find false (StateMap.find_insert_self _ p.provider _)]
    rw [StateMap.insert_insert]
    exact StateMap.find_insert_self _ p.provider _
  refine ⟨by rw [hself], by rw [hself]; exact hmapfind, by rw [hself], ?_⟩
  intro b
  have hb := hout { env with storeOk := b } hsub har hwb rfl rfl
  exact ⟨by rw [hself, hb], by rw [hb], by rw [hself, hb]⟩

/-- Witness for C5: concrete confirmation run on the registered fixture
with the all-success environment and the fixture settled event. -/
theorem settle_event_path_witness :
    mRegFix.find pFix = some sRegFix ∧ sRegFix.settleInProgress = false ∧
    envOkFix.subscribeOk = true ∧ envOkFix.settleAndRebalanceOk = true ∧
    envOkFix.settleWithBeneficiaryOk = true ∧
    envOkFix.getProviderChannel cfgFix.HermesAddress pFix.ToCommonAddress
      = .ok ⟨some 10, some 4⟩ ∧
    envOkFix.promiseGet pFix cfgFix.HermesAddress = .found ⟨⟨9, []⟩, ""⟩ ∧
    ((settle envOkFix cfgFix mRegFix ⟨pFix, ⟨9, []⟩⟩ none
        (.chainEvent (some infoFix))).storedEntries
      = [⟨infoFix.Raw.TxHash, ⟨9, []⟩, infoFix.Amount, infoFix.TotalSettled, none⟩] ∧
    (settle envOkFix cfgFix mRegFix ⟨pFix, ⟨9, []⟩⟩ none
        (.chainEvent (some infoFix))).map.find pFix
      = some ⟨⟨some 10, some 4⟩, ⟨9, []⟩, false, true⟩ ∧
    (settle envOkFix cfgFix mRegFix ⟨pFix, ⟨9, []⟩⟩ none
        (.chainEvent (some infoFix))).result = .ok () ∧
    (∀ b : Bool,
      (settle { envOkFix with storeOk := b } cfgFix mRegFix ⟨pFix, ⟨9, []⟩⟩ none
          (.chainEvent (some infoFix))).map
        = (settle envOkFix cfgFix mRegFix ⟨pFix, ⟨9, []⟩⟩ none
            (.chainEvent (some infoFix))).map ∧
      (settle { envOkFix with storeOk := b } cfgFix mRegFix ⟨pFix, ⟨9, []⟩⟩ none
          (.chainEvent (some infoFix))).result = .ok () ∧
      (settle { envOkFix with storeOk := b } cfgFix mRegFix ⟨pFix, ⟨9, []⟩⟩ none
          (.chainEvent (some infoFix))).storedEntries
        = (settle envOkFix cfgFix mRegFix ⟨pFix, ⟨9, []⟩⟩ none
            (.chainEvent (some infoFix))).storedEntries)) :=
  ⟨rfl, rfl, rfl, rfl, rfl, rfl, rfl,
    settle_event_path envOkFix cfgFix mRegFix ⟨pFix, ⟨9, []⟩⟩ none infoFix
      sRegFix ⟨some 10, some 4⟩ ⟨⟨9, []⟩, ""⟩ rfl rfl rfl rfl rfl rfl rfl⟩

/-!
Claim C6 — promise events for unregistered providers.
-/

/-- C6 counterexample: on the unregistered fixture (stored amount 0), a
promise event with amount 7 leaves the map completely unchanged — the
handler returns before the `lastPromise` update (part_001 lines
503-506), so the stored promise is not updated as the claim states. -/
theorem unregistered_promise_not_updated :
    (handleHermesPromiseReceived envNone cfgFix mUnregFix ev7Fix).map
      = mUnregFix ∧
    mUnregFix.find pFix = some sUnregFix ∧
    sUnregFix.lastPromise.Amount = 0 ∧
    ev7Fix.Promise.Amount = 7 := by
  exact ⟨rfl, rfl, rfl, rfl⟩

/-- C6 amended: for a provider whose state exists with
`registered = false`, a promise event leaves the stored state unchanged
(in particular `last_promise` is not updated), publishes no earnings
event, enqueues nothing, `needs_settling` stays false, and the dispatcher
consequently makes no transactor call. -/
theorem unregistered_promise_ignored (env : SettlerEnv)
    (cfg : HermesPromiseSettlerConfig) (m : StateMap)
    (apep : event.AppEventHermesPromise) (s₀ : settlementState)
    (hfind : m.find apep.ProviderID = some s₀)
    (hreg : s₀.registered = false) :
    (handleHermesPromiseReceived env cfg m apep).map = m ∧
    (handleHermesPromiseReceived env cfg m apep).events = [] ∧
    (handleHermesPromiseReceived env cfg m apep).enqueued = [] ∧
    (∀ t : ℚ, s₀.needsSettling t = false) ∧
    (∀ o : WaiterOutcome,
      (dispatchQueue env cfg m
        ((handleHermesPromiseReceived env cfg m apep).enqueued.map
          (fun q => (q, o)))).2 = []) := by
  have hmain : handleHermesPromiseReceived env cfg m apep = ⟨m, [], []⟩ := by
    unfold handleHermesPromiseReceived
    rw [hfind]
    simp [hreg]
  refine ⟨by rw [hmain], by rw [hmain], by rw [hmain], ?_, ?_⟩
  · intro t
    unfold settlementState.needsSettling
    simp [hreg]
  · intro o
    rw [hmain]
    rfl

/-- Witness for the amended C6: the unregistered fixture with the
amount-7 event. -/
theorem unregistered_promise_ignored_witness :
    mUnregFix.find pFix = some sUnregFix ∧ sUnregFix.registered = false ∧
    ((handleHermesPromiseReceived envNone cfgFix mUnregFix ev7Fix).map
        = mUnregFix ∧
      (handleHermesPromiseReceived envNone cfgFix mUnregFix ev7Fix).events = [] ∧
      (handleHermesPromiseReceived envNone cfgFix mUnregFix ev7Fix).enqueued = [] ∧
      (∀ t : ℚ, sUnregFix.needsSettling t = false) ∧
      (∀ o : WaiterOutcome,
        (dispatchQueue envNone cfgFix mUnregFix
          ((handleHermesPromiseReceived envNone cfgFix mUnregFix
            ev7Fix).enqueued.map (fun q => (q, o)))).2 = [])) :=
  ⟨rfl, rfl, unregistered_promise_ignored envNone cfgFix mUnregFix ev7Fix
    sUnregFix rfl rfl⟩

/-!
Claim C7 — the beneficiary variant.
-/

/-- C7: `SettleWithBeneficiary(p, B, H)` submits through the transactor
method `SettleWithBeneficiary` (not `SettleAndRebalance`) and on
confirmation stores a history entry whose beneficiary field is `B`,
while `ForceSettle` submits through `SettleAndRebalance` and stores an
entry whose beneficiary field is absent (`none`). -/
theorem beneficiary_routing (env : SettlerEnv)
    (cfg : HermesPromiseSettlerConfig) (m : StateMap)
    (pID : identity.Identity) (B hID : common.Address)
    (info : bindings.HermesImplementationPromiseSettled)
    (hp : HermesPromise) (hexR : List Nat) (s₀ : settlementState)
    (hget : env.promiseGet pID hID = .found hp)
    (hdec : hexDecodeString hp.R = some hexR)
    (hfind : m.find pID = some s₀)
    (hflag : s₀.settleInProgress = false)
    (hsub : env.subscribeOk = true)
    (har : env.settleAndRebalanceOk = true)
    (hwb : env.settleWithBeneficiaryOk = true) :
    (SettleWithBeneficiary env cfg m pID B hID
        (.chainEvent (some info))).transactorCalls
      = [.SettleWithBeneficiary pID.Address B.Hex cfg.HermesAddress.Hex
          { hp.Promise with R := hexR }] ∧
    (SettleWithBeneficiary env cfg m pID B hID
        (.chainEvent (some info))).storedEntries
      = [⟨info.Raw.TxHash, { hp.Promise with R := hexR }, info.Amount,
          info.TotalSettled, some B⟩] ∧
    (ForceSettle env cfg m pID hID (.chainEvent (some info))).transactorCalls
      = [.SettleAndRebalance cfg.HermesAddress.Hex pID.Address
          { hp.Promise with R := hexR }] ∧
    (ForceSettle env cfg m pID hID (.chainEvent (some info))).storedEntries
      = [⟨info.Raw.TxHash, { hp.Promise with R := hexR }, info.Amount,
          info.TotalSettled, none⟩] := by
  have hnots : isSettling m pID = false := by
    rw [isSettling_of_find hfind, hflag]
  have hwbf : SettleWithBeneficiary env cfg m pID B hID (.chainEvent (some info))
      = settle env cfg m ⟨pID, { hp.Promise with R := hexR }⟩ (some B)
          (.chainEvent (some info)) := by
    unfold SettleWithBeneficiary
    rw [hget]
    simp only [hdec]
  have hfsf : ForceSettle env cfg m pID hID (.chainEvent (some info))
      = settle env cfg m ⟨pID, { hp.Promise with R := hexR }⟩ none
          (.chainEvent (some info)) := by
    unfold ForceSettle
    rw [hget]
    simp only [hdec]
  rw [hwbf, hfsf]
  unfold settle
  rw [hnots]
  simp [hsub, har, hwb]

/-- Witness for C7: concrete runs of both variants on the registered
fixture with the all-success environment. -/
theorem beneficiary_routing_witness :
    envOkFix.promiseGet pFix hFix = .found ⟨⟨9, []⟩, ""⟩ ∧
    hexDecodeString ("" : String) = some [] ∧
    mRegFix.find pFix = some sRegFix ∧ sRegFix.settleInProgress = false ∧
    ((SettleWithBeneficiary envOkFix cfgFix mRegFix pFix bFix hFix
        (.chainEvent (some infoFix))).transactorCalls
      = [.SettleWithBeneficiary pFix.Address bFix.Hex cfgFix.HermesAddress.Hex
          ⟨9, []⟩] ∧
    (SettleWithBeneficiary envOkFix cfgFix mRegFix pFix bFix hFix
        (.chainEvent (some infoFix))).storedEntries
      = [⟨infoFix.Raw.TxHash, ⟨9, []⟩, infoFix.Amount,
          infoFix.TotalSettled, some bFix⟩] ∧
    (ForceSettle envOkFix cfgFix mRegFix pFix hFix
        (.chainEvent (some infoFix))).transactorCalls
      = [.SettleAndRebalance cfgFix.HermesAddress.Hex pFix.Address ⟨9, []⟩] ∧
    (ForceSettle envOkFix cfgFix mRegFix pFix hFix
        (.chainEvent (some infoFix))).storedEntries
      = [⟨infoFix.Raw.TxHash, ⟨9, []⟩, infoFix.Amount,
          infoFix.TotalSettled, none⟩]) :=
  ⟨rfl, rfl, rfl, rfl,
    beneficiary_routing envOkFix cfgFix mRegFix pFix bFix hFix infoFix
      ⟨⟨9, []⟩, ""⟩ [] sRegFix rfl rfl rfl rfl rfl rfl rfl⟩

/-!
Claim C8 — idempotent initial-state load.
-/

/-- C8: a second consecutive `loadInitialState` for the same identity is
a no-op — the second call returns the same map and publishes no event —
so two calls leave one state entry for the identity (created by the
first call when it resyncs) and publish at most one earnings event in
total; and a call for an identity that is not registered creates no
entry. -/
theorem load_initial_state_idempotent (env : SettlerEnv)
    (cfg : HermesPromiseSettlerConfig) (m : StateMap)
    (addr : identity.Identity) :
    (loadInitialState env cfg (loadInitialState env cfg m addr).map addr).map
      = (loadInitialState env cfg m addr).map ∧
    (loadInitialState env cfg (loadInitialState env cfg m addr).map addr).events
      = [] ∧
    (loadInitialState env cfg m addr).events.length ≤ 1 ∧
    (∀ st : registry.RegistrationStatus,
      env.getRegistrationStatus addr = .ok st →
      st ≠ registry.RegistrationStatus.Registered → m.find addr = none →
      (loadInitialState env cfg m addr).map.find addr = none) ∧
    (∀ st : registry.RegistrationStatus,
      env.getRegistrationStatus addr = .ok st →
      st = registry.RegistrationStatus.Registered → m.find addr = none →
      (loadInitialState env cfg m addr).ok = true →
      ((loadInitialState env cfg m addr).map.find addr).isSome = true) := by
  have hcase : ∀ m₂ : StateMap,
      loadInitialState env cfg m₂ addr
        = (match m₂.find addr with
          | some _ => ⟨m₂, [], true⟩
          | none =>
            match env.getRegistrationStatus addr with
            | .error _ => ⟨m₂, [], false⟩
            | .ok status =>
              if status ≠ registry.RegistrationStatus.Registered then ⟨m₂, [], true⟩
              else
                let r := resyncState env cfg m₂ addr
                ⟨r.map, r.events, r.ok⟩) := fun _ => rfl
  have hres : ∀ m₂ : StateMap,
      resyncState env cfg m₂ addr = ⟨m₂, [], false⟩ ∨
      ∃ s₂, resyncState env cfg m₂ addr
          = ⟨m₂.insert addr s₂,
              [⟨addr, (m₂.findZero addr).Earnings, s₂.Earnings⟩], true⟩ := by
    intro m₂
    unfold resyncState
    cases env.getProviderChannel cfg.HermesAddress addr.ToCommonAddress with
    | error e => exact Or.inl rfl
    | ok channel =>
        cases env.promiseGet addr cfg.HermesAddress with
        | storageError => exact Or.inl rfl
        | found hp => exact Or.inr ⟨_, rfl⟩
        | notFound => exact Or.inr ⟨_, rfl⟩
  cases hfind : m.find addr with
  | some s₀ =>
      have h1 : loadInitialState env cfg m addr = ⟨m, [], true⟩ := by
        rw [hcase m, hfind]
      have h2 : (loadInitialState env cfg m addr).map = m := by rw [h1]
      refine ⟨?_, ?_, ?_, ?_, ?_⟩
      · rw [h2]
        exact h2
      · rw [h2, h1]
      · rw [h1]
        simp
      · intro st _ _ hnone
        exact absurd hnone (by simp)
      · intro st _ _ hnone
        exact absurd hnone (by simp)
  | none =>
      cases hreg : env.getRegistrationStatus addr with
      | error e =>
          have h1 : loadInitialState env cfg m addr = ⟨m, [], false⟩ := by
            rw [hcase m, hfind, hreg]
          have h2 : (loadInitialState env cfg m addr).map = m := by rw [h1]
          refine ⟨?_, ?_, ?_, ?_, ?_⟩
          · rw [h2]
            exact h2
          · rw [h2, h1]
          · rw [h1]
            simp
          · intro st hst
            exact absurd hst (by simp)
          · intro st hst
            exact absurd hst (by simp)
      | ok status =>
          by_cases hst : status = registry.RegistrationStatus.Registered
          · subst hst
            rcases hres m with hfail | ⟨s₂, hsucc⟩
            · have h1 : loadInitialState env cfg m addr = ⟨m, [], false⟩ := by
                rw [hcase m, hfind, hreg]
                simp [hfail]
              have h2 : (loadInitialState env cfg m addr).map = m := by rw [h1]
              refine ⟨?_, ?_, ?_, ?_, ?_⟩
              · rw [h2]
                exact h2
              · rw [h2, h1]
              · rw [h1]
                simp
              · intro st hst2 hne _
                injection hst2 with h4
                exact absurd h4.symm hne
              · intro st _ _ _ hok2
                rw [h1] at hok2
                exact absurd hok2 (by simp)
            · have h1 : loadInitialState env cfg m addr
                  = ⟨m.insert addr s₂,
                      [⟨addr, (m.findZero addr).Earnings, s₂.Earnings⟩], true⟩ := by
                rw [hcase m, hfind, hreg]
                simp [hsucc]
              have h2 : (loadInitialState env cfg m addr).map
                  = m.insert addr s₂ := by rw [h1]
              have hfind2 : (m.insert addr s₂).find addr = some s₂ :=
                StateMap.find_insert_self m addr s₂
              have h3 : loadInitialState env cfg (m.insert addr s₂) addr
                  = ⟨m.insert addr s₂, [], true⟩ := by
                rw [hcase (m.insert addr s₂), hfind2]
              refine ⟨?_, ?_, ?_, ?_, ?_⟩
              · rw [h2, h3]
              · rw [h2, h3]
              · rw [h1]
                simp
              · intro st hst2 hne _
                injection hst2 with h4
                exact absurd h4.symm hne
              · intro st _ _ _ _
                rw [h2, hfind2]
                rfl
          · have h1 : loadInitialState env cfg m addr = ⟨m, [], true⟩ := by
              rw [hcase m, hfind, hreg]
              simp [hst]
            have h2 : (loadInitialState env cfg m addr).map = m := by rw [h1]
            refine ⟨?_, ?_, ?_, ?_, ?_⟩
            · rw [h2]
              exact h2
            · rw [h2, h1]
            · rw [h1]
              simp
            · intro st _ _ _
              rw [h2]
              exact hfind
            · intro st hst2 heq _ _
              injection hst2 with h4
              exact absurd (h4.trans heq) hst

/-- Witness for C8: the fixture identity on the empty map with the
all-success environment (registered; the resync succeeds). -/
theorem load_initial_state_idempotent_witness :
    (loadInitialState envOkFix cfgFix
        (loadInitialState envOkFix cfgFix [] pFix).map pFix).map
      = (loadInitialState envOkFix cfgFix [] pFix).map ∧
    (loadInitialState envOkFix cfgFix
        (loadInitialState envOkFix cfgFix [] pFix).map pFix).events = [] ∧
    (loadInitialState envOkFix cfgFix [] pFix).events.length ≤ 1 :=
  ⟨(load_initial_state_idempotent envOkFix cfgFix [] pFix).1,
    (load_initial_state_idempotent envOkFix cfgFix [] pFix).2.1,
    (load_initial_state_idempotent envOkFix cfgFix [] pFix).2.2.1⟩

/-!
Claim C9 — entry creation and deletion.
-/

theorem isSettling_isSome {m : StateMap} {i : identity.Identity}
    (h : isSettling m i = true) : (m.find i).isSome = true := by
  unfold isSettling at h
  cases hf : m.find i with
  | none => rw [hf] at h; simp at h
  | some v => simp

theorem find_setSettling_self (m : StateMap) (i : identity.Identity) (b : Bool) :
    (setSettling m i b).find i
      = some { m.findZero i with settleInProgress := b } :=
  StateMap.find_insert_self m i _

theorem resyncState_keys (env : SettlerEnv) (cfg : HermesPromiseSettlerConfig)
    (m : StateMap) (i : identity.Identity) :
    keysPreserved m (resyncState env cfg m i).map := by
  unfold resyncState
  cases env.getProviderChannel cfg.HermesAddress i.ToCommonAddress with
  | error e => exact keysPreserved_refl m
  | ok channel =>
      cases env.promiseGet i cfg.HermesAddress with
      | storageError => exact keysPreserved_refl m
      | found hp => exact keysPreserved_insert m i _
      | notFound => exact keysPreserved_insert m i _

theorem handleHermesPromiseReceived_keys (env : SettlerEnv)
    (cfg : HermesPromiseSettlerConfig) (m : StateMap)
    (apep : event.AppEventHermesPromise) :
    keysPreserved m (handleHermesPromiseReceived env cfg m apep).map := by
  cases hfind : m.find apep.ProviderID with
  | none =>
      have h : (handleHermesPromiseReceived env cfg m apep).map = m := by
        unfold handleHermesPromiseReceived
        rw [hfind]
      rw [h]
      exact keysPreserved_refl m
  | some s₀ =>
      cases hreg : s₀.registered with
      | false =>
          have h : (handleHermesPromiseReceived env cfg m apep).map = m := by
            unfold handleHermesPromiseReceived
            rw [hfind]
            simp [hreg]
          rw [h]
          exact keysPreserved_refl m
      | true =>
          rw [handleHermesPromiseReceived_map_of_registered env cfg m apep s₀
            hfind hreg]
          exact keysPreserved_insert m apep.ProviderID _

theorem loadInitialState_keys (env : SettlerEnv)
    (cfg : HermesPromiseSettlerConfig) (m : StateMap)
    (addr : identity.Identity) :
    keysPreserved m (loadInitialState env cfg m addr).map := by
  cases hfind : m.find addr with
  | some s₀ =>
      have h : (loadInitialState env cfg m addr).map = m := by
        unfold loadInitialState
        rw [hfind]
      rw [h]
      exact keysPreserved_refl m
  | none =>
      cases hreg : env.getRegistrationStatus addr with
      | error e =>
          have h : (loadInitialState env cfg m addr).map = m := by
            unfold loadInitialState
            rw [hfind, hreg]
          rw [h]
          exact keysPreserved_refl m
      | ok status =>
          by_cases hst : status = registry.RegistrationStatus.Registered
          · subst hst
            have h : (loadInitialState env cfg m addr).map
                = (resyncState env cfg m addr).map := by
              unfold loadInitialState
              rw [hfind, hreg]
              simp
            rw [h]
            exact resyncState_keys env cfg m addr
          · have h : (loadInitialState env cfg m addr).map = m := by
              unfold loadInitialState
              rw [hfind, hreg]
              simp [hst]
            rw [h]
            exact keysPreserved_refl m

/-- The final map of a `settle` run is one of three shapes: untouched
(rejected as already in progress), flag set then cleared, or flag set,
resynced, then cleared. -/
theorem settle_map_cases (env : SettlerEnv) (cfg : HermesPromiseSettlerConfig)
    (m : StateMap) (p : receivedPromise) (ben : Option common.Address)
    (o : WaiterOutcome) :
    (isSettling m p.provider = true ∧ (settle env cfg m p ben o).map = m) ∨
    (settle env cfg m p ben o).map
      = setSettling (setSettling m p.provider true) p.provider false ∨
    (settle env cfg m p ben o).map
      = setSettling (resyncState env cfg (setSettling m p.provider true)
          p.provider).map p.provider false := by
  unfold settle
  cases h1 : isSettling m p.provider with
  | true => exact Or.inl ⟨rfl, rfl⟩
  | false =>
      cases h2 : env.subscribeOk with
      | false => exact Or.inr (Or.inl rfl)
      | true =>
          cases ben with
          | none =>
              cases h3 : env.settleAndRebalanceOk with
              | false => exact Or.inr (Or.inl rfl)
              | true =>
                  cases o with
                  | stopSignal => exact Or.inr (Or.inl rfl)
                  | timeout => exact Or.inr (Or.inl rfl)
                  | chainEvent info =>
                      cases info with
                      | none => exact Or.inr (Or.inl rfl)
                      | some ev => exact Or.inr (Or.inr rfl)
          | some B =>
              cases h3 : env.settleWithBeneficiaryOk with
              | false => exact Or.inr (Or.inl rfl)
              | true =>
                  cases o with
                  | stopSignal => exact Or.inr (Or.inl rfl)
                  | timeout => exact Or.inr (Or.inl rfl)
                  | chainEvent info =>
                      cases info with
                      | none => exact Or.inr (Or.inl rfl)
                      | some ev => exact Or.inr (Or.inr rfl)

theorem settle_keys (env : SettlerEnv) (cfg : HermesPromiseSettlerConfig)
    (m : StateMap) (p : receivedPromise) (ben : Option common.Address)
    (o : WaiterOutcome) :
    keysPreserved m (settle env cfg m p ben o).map := by
  rcases settle_map_cases env cfg m p ben o with ⟨_, h⟩ | h | h <;> rw [h]
  · exact keysPreserved_refl m
  · exact keysPreserved_trans (keysPreserved_setSettling m p.provider true)
      (keysPreserved_setSettling _ p.provider false)
  · exact keysPreserved_trans
      (keysPreserved_trans (keysPreserved_setSettling m p.provider true)
        (resyncState_keys env cfg _ p.provider))
      (keysPreserved_setSettling _ p.provider false)

theorem settle_ensures_entry (env : SettlerEnv)
    (cfg : HermesPromiseSettlerConfig) (m : StateMap) (p : receivedPromise)
    (ben : Option common.Address) (o : WaiterOutcome) :
    ((settle env cfg m p ben o).map.find p.provider).isSome = true := by
  rcases settle_map_cases env cfg m p ben o with ⟨hs, h⟩ | h | h <;> rw [h]
  · exact isSettling_isSome hs
  · rw [find_setSettling_self]
    rfl
  · rw [find_setSettling_self]
    rfl

theorem ForceSettle_keys (env : SettlerEnv) (cfg : HermesPromiseSettlerConfig)
    (m : StateMap) (pID : identity.Identity) (hID : common.Address)
    (o : WaiterOutcome) :
    keysPreserved m (ForceSettle env cfg m pID hID o).map := by
  cases hget : env.promiseGet pID hID with
  | notFound =>
      have h : (ForceSettle env cfg m pID hID o).map = m := by
        unfold ForceSettle
        rw [hget]
      rw [h]
      exact keysPreserved_refl m
  | storageError =>
      have h : (ForceSettle env cfg m pID hID o).map = m := by
        unfold ForceSettle
        rw [hget]
      rw [h]
      exact keysPreserved_refl m
  | found promise =>
      cases hdec : hexDecodeString promise.R with
      | none =>
          have h : (ForceSettle env cfg m pID hID o).map = m := by
            unfold ForceSettle
            rw [hget]
            simp only [hdec]
          rw [h]
          exact keysPreserved_refl m
      | some hexR =>
          have h : ForceSettle env cfg m pID hID o
              = settle env cfg m ⟨pID, { promise.Promise with R := hexR }⟩
                  none o := by
            unfold ForceSettle
            rw [hget]
            simp only [hdec]
          rw [h]
          exact settle_keys env cfg m _ none o

theorem SettleWithBeneficiary_keys (env : SettlerEnv)
    (cfg : HermesPromiseSettlerConfig) (m : StateMap)
    (pID : identity.Identity) (B hID : common.Address) (o : WaiterOutcome) :
    keysPreserved m (SettleWithBeneficiary env cfg m pID B hID o).map := by
  cases hget : env.promiseGet pID hID with
  | notFound =>
      have h : (SettleWithBeneficiary env cfg m pID B hID o).map = m := by
        unfold SettleWithBeneficiary
        rw [hget]
      rw [h]
      exact keysPreserved_refl m
  | storageError =>
      have h : (SettleWithBeneficiary env cfg m pID B hID o).map = m := by
        unfold SettleWithBeneficiary
        rw [hget]
      rw [h]
      exact keysPreserved_refl m
  | found promise =>
      cases hdec : hexDecodeString promise.R with
      | none =>
          have h : (SettleWithBeneficiary env cfg m pID B hID o).map = m := by
            unfold SettleWithBeneficiary
            rw [hget]
            simp only [hdec]
          rw [h]
          exact keysPreserved_refl m
      | some hexR =>
          have h : SettleWithBeneficiary env cfg m pID B hID o
              = settle env cfg m ⟨pID, { promise.Promise with R := hexR }⟩
                  (some B) o := by
            unfold SettleWithBeneficiary
            rw [hget]
            simp only [hdec]
          rw [h]
          exact settle_keys env cfg m _ (some B) o

/-- C9 counterexample: starting from the empty map (no entry for the
fixture provider), a `ForceSettle` run creates a map entry for it —
`setSettling` (part_001 lines 709-715) reads the zero value for a
missing key and writes it back, so `settle` inserts an entry; entry
creation is therefore not limited to the service-running, registration
and node-start paths. -/
theorem force_settle_creates_entry :
    StateMap.find ([] : StateMap) pFix = none ∧
    ((ForceSettle envOkFix cfgFix [] pFix hFix .timeout).map.find pFix).isSome
      = true := ⟨rfl, rfl⟩

/-- C9 amended: a `SettlementState` entry is created by the
service-running, registration-completion and node-start load paths, and
additionally by `settle` itself (via `setSettling`) whenever it runs for
an identity with no existing entry — for example through `force_settle`;
no operation ever deletes an entry (every operation preserves the key
set of the state map), and after any `settle` run the provider has an
entry. -/
theorem state_entry_lifecycle :
    (∀ (env : SettlerEnv) (cfg : HermesPromiseSettlerConfig) (m : StateMap)
        (apep : event.AppEventHermesPromise),
      keysPreserved m (handleHermesPromiseReceived env cfg m apep).map) ∧
    (∀ (env : SettlerEnv) (cfg : HermesPromiseSettlerConfig) (m : StateMap)
        (i : identity.Identity),
      keysPreserved m (resyncState env cfg m i).map) ∧
    (∀ (env : SettlerEnv) (cfg : HermesPromiseSettlerConfig) (m : StateMap)
        (addr : identity.Identity),
      keysPreserved m (loadInitialState env cfg m addr).map) ∧
    (∀ (env : SettlerEnv) (cfg : HermesPromiseSettlerConfig) (m : StateMap)
        (p : receivedPromise) (ben : Option common.Address) (o : WaiterOutcome),
      keysPreserved m (settle env cfg m p ben o).map) ∧
    (∀ (env : SettlerEnv) (cfg : HermesPromiseSettlerConfig) (m : StateMap)
        (pID : identity.Identity) (hID : common.Address) (o : WaiterOutcome),
      keysPreserved m (ForceSettle env cfg m pID hID o).map) ∧
    (∀ (env : SettlerEnv) (cfg : HermesPromiseSettlerConfig) (m : StateMap)
        (pID : identity.Identity) (B hID : common.Address) (o : WaiterOutcome),
      keysPreserved m (SettleWithBeneficiary env cfg m pID B hID o).map) ∧
    (∀ (env : SettlerEnv) (cfg : HermesPromiseSettlerConfig) (m : StateMap)
        (p : receivedPromise) (ben : Option common.Address) (o : WaiterOutcome),
      ((settle env cfg m p ben o).map.find p.provider).isSome = true) :=
  ⟨handleHermesPromiseReceived_keys, resyncState_keys, loadInitialState_keys,
    settle_keys, ForceSettle_keys, SettleWithBeneficiary_keys,
    settle_ensures_entry⟩

/-- Witness for the amended C9: the promise handler on the registered
fixture preserves the fixture entry, and the fixture `settle` run leaves
an entry for the provider. -/
theorem state_entry_lifecycle_witness :
    ((mRegFix.find pFix).isSome = true →
      (((handleHermesPromiseReceived envNone cfgFix mRegFix
        ev7Fix).map.find pFix).isSome = true)) ∧
    ((settle envOkFix cfgFix mRegFix ⟨pFix, ⟨9, []⟩⟩ none
        .timeout).map.find pFix).isSome = true :=
  ⟨fun h => state_entry_lifecycle.1 envNone cfgFix mRegFix ev7Fix pFix h,
    state_entry_lifecycle.2.2.2.2.2.2 envOkFix cfgFix mRegFix
      ⟨pFix, ⟨9, []⟩⟩ none .timeout⟩

/-!
Claim C10 — earnings of an unknown identity.
-/

/-- C10: for an identity with no state entry, `GetEarnings` returns the
zero snapshot (lifetime 0, unsettled 0) instead of failing; the
embedding types `GetEarnings` as a pure read of the map, matching the Go
map read at part_001 line 563, which never inserts. -/
theorem get_earnings_zero (m : StateMap) (i : identity.Identity)
    (h : m.find i = none) :
    GetEarnings m i = { LifetimeBalance := 0, UnsettledBalance := 0 } := by
  unfold GetEarnings StateMap.findZero
  rw [h]
  rfl

/-- Witness for C10: the empty map. -/
theorem get_earnings_zero_witness :
    StateMap.find ([] : StateMap) pFix = none ∧
    GetEarnings [] pFix = { LifetimeBalance := 0, UnsettledBalance := 0 } :=
  ⟨rfl, get_earnings_zero [] pFix rfl⟩

end Node
